import Mathlib

/-!
Verification of the opensink-examples agent services.

This file gives a shallow embedding, in Lean, of the pure data shaping and
the request-scoped control flow of the three example agents:

* the finance-news agent (src/examples/1-finance-news-agent-fastify/src/app.ts),
* the trading agent (src/unnamed/part_000), and
* the marketing agent (src/examples/3-marketing-agent/src/routes/index.ts,
  with an earlier variant in src/unnamed/part_003 and part_002).

External network calls (news API, OpenAI, Apify, OpenSink store) are modelled
as environment-supplied results of type Except String so that a thrown
exception at a stage is an error value; the store writes a run performs are
recorded in an explicit trace. Best-effort activity logging (logActivity) is
omitted from the traces: its failures are caught and swallowed inside the
helper, so it never influences control flow, return values, session status
or the claims below.

JavaScript truthiness is modelled explicitly where the source relies on it:
an absent or empty string is falsy, the number 0 is falsy, and an absent
object property is falsy.
-/

/- ------------------------------------------------------------------ -/
/- Trading agent: trades and the approval response (part_000)          -/
/- ------------------------------------------------------------------ -/

/-- A proposed trade, as produced by proposeTrades in part_000. -/
structure Trade where
  symbol : String
  action : String
  quantity : Int
  reason : String
deriving DecidableEq, Inhabited

/-- One sub-object of the recorded approval response: the mutable
boolean the approval UI fills in for each proposed trade. -/
structure TradeDecision where
  approved : Bool
deriving DecidableEq, Inhabited

/-- The recorded human response of the input request: a map from keys
such as "trade_0" to per-trade decisions, plus the optional notes field.
An absent key yields none, matching the undefined result of a missing
JavaScript object property. -/
structure ApprovalResponse where
  decisions : String → Option TradeDecision
  notes : Option String

/-- The positional key scheme used both at proposal time
(buildTradeApprovalSchema) and at approval time (handleTradeExecution). -/
def tradeKey (i : Nat) : String := "trade_" ++ toString i

/-- Truthiness of response[`trade_i`]?.approved in handleTradeExecution:
a missing key is undefined, hence falsy. -/
def isApproved (decisions : String → Option TradeDecision) (i : Nat) : Bool :=
  match decisions (tradeKey i) with
  | some d => d.approved
  | none => false

/-- The forEach loop of handleTradeExecution (part_000 lines 289 to 296),
pushing each trade into approvedTrades or rejectedTrades according to the
decision recorded under its positional key. The first component collects
the approved trades, the second the rejected ones, both in proposal order.
The counter starts at the given index. -/
def splitTradesFrom (decisions : String → Option TradeDecision) :
    Nat → List Trade → List Trade × List Trade
  | _, [] => ([], [])
  | i, t :: ts =>
    let rest := splitTradesFrom decisions (i + 1) ts
    if isApproved decisions i then (t :: rest.1, rest.2) else (rest.1, t :: rest.2)

/-- The partition of the proposed trades performed by handleTradeExecution. -/
def splitTrades (decisions : String → Option TradeDecision) (trades : List Trade) :
    List Trade × List Trade :=
  splitTradesFrom decisions 0 trades

theorem splitTradesFrom_fst (decisions : String → Option TradeDecision)
    (k : Nat) (ts : List Trade) :
    (splitTradesFrom decisions k ts).1
      = ((List.enumFrom k ts).filter (fun p => isApproved decisions p.1)).map Prod.snd := by
  induction ts generalizing k with
  | nil => rfl
  | cons t ts ih =>
    simp only [splitTradesFrom, List.enumFrom, List.filter_cons]
    cases h : isApproved decisions k <;> simp [h, ih]

theorem splitTradesFrom_snd (decisions : String → Option TradeDecision)
    (k : Nat) (ts : List Trade) :
    (splitTradesFrom decisions k ts).2
      = ((List.enumFrom k ts).filter (fun p => !isApproved decisions p.1)).map Prod.snd := by
  induction ts generalizing k with
  | nil => rfl
  | cons t ts ih =>
    simp only [splitTradesFrom, List.enumFrom, List.filter_cons]
    cases h : isApproved decisions k <;> simp [h, ih]

theorem length_filter_add_length_filter_not {α : Type} (l : List α) (p : α → Bool) :
    (l.filter p).length + (l.filter (fun a => !p a)).length = l.length := by
  induction l with
  | nil => rfl
  | cons a l ih =>
    cases h : p a <;> simp [List.filter_cons, h, ← ih] <;> omega

/-- Claim C1: in the trading-agent continuation path, for every list of
proposed trades and every non-null approval response, the executed
(approved) list is exactly the trades whose positional key carries a truthy
approved field, in order; the rejected list is exactly the complement; a
trade at index i lands in the approved selection iff its key was approved;
no indexed trade is in both selections; and the two selections together
account for all proposals. -/
theorem handleTradeExecution_partition
    (trades : List Trade) (decisions : String → Option TradeDecision) :
    (splitTrades decisions trades).1
        = (trades.enum.filter (fun p => isApproved decisions p.1)).map Prod.snd
    ∧ (splitTrades decisions trades).2
        = (trades.enum.filter (fun p => !isApproved decisions p.1)).map Prod.snd
    ∧ (∀ i : Nat, ∀ t : Trade, (i, t) ∈ trades.enum →
        ((i, t) ∈ trades.enum.filter (fun p => isApproved decisions p.1)
          ↔ isApproved decisions i = true))
    ∧ (∀ i : Nat, ∀ t : Trade,
        ¬ ((i, t) ∈ trades.enum.filter (fun p => isApproved decisions p.1)
            ∧ (i, t) ∈ trades.enum.filter (fun p => !isApproved decisions p.1)))
    ∧ (splitTrades decisions trades).1.length + (splitTrades decisions trades).2.length
        = trades.length := by
  refine ⟨?_, ?_, ?_, ?_, ?_⟩
  · simpa [List.enum] using splitTradesFrom_fst decisions 0 trades
  · simpa [List.enum] using splitTradesFrom_snd decisions 0 trades
  · intro i t hmem
    simp [List.mem_filter, hmem]
  · intro i t hcontra
    rcases hcontra with ⟨h1, h2⟩
    rw [List.mem_filter] at h1 h2
    simp only [Bool.not_eq_true'] at h2
    exact absurd h1.2 (by simp [h2.2])
  · rw [splitTrades, splitTradesFrom_fst, splitTradesFrom_snd]
    simp only [List.length_map]
    have := length_filter_add_length_filter_not (List.enumFrom 0 trades)
      (fun p => isApproved decisions p.1)
    simpa using this

/-- Concrete proposed trades used to exercise the partition theorem. -/
def tradesC1 : List Trade :=
  [ { symbol := "AAPL", action := "buy", quantity := 10, reason := "earnings beat" },
    { symbol := "BTC", action := "sell", quantity := 2, reason := "overbought" },
    { symbol := "NVDA", action := "buy", quantity := 5, reason := "ai demand" } ]

/-- Concrete approval response: index 0 approved, index 1 missing from the
response, index 2 present but not approved. -/
def decisionsC1 : String → Option TradeDecision := fun k =>
  if k = "trade_0" then some { approved := true }
  else if k = "trade_2" then some { approved := false }
  else none

theorem handleTradeExecution_partition_witness :
    (splitTrades decisionsC1 tradesC1).1
        = [{ symbol := "AAPL", action := "buy", quantity := 10, reason := "earnings beat" }]
    ∧ (splitTrades decisionsC1 tradesC1).2
        = [{ symbol := "BTC", action := "sell", quantity := 2, reason := "overbought" },
           { symbol := "NVDA", action := "buy", quantity := 5, reason := "ai demand" }] := by
  have h := handleTradeExecution_partition tradesC1 decisionsC1
  exact ⟨h.1.trans (by decide), h.2.1.trans (by decide)⟩

/- ------------------------------------------------------------------ -/
/- Marketing agent: tweet normalization (index.ts, part_002, part_003) -/
/- ------------------------------------------------------------------ -/

/-- The author object of a scraped tweet. -/
structure Author where
  userName : String
  followers : Nat
deriving DecidableEq, Inhabited

/-- Shape returned by the apidojo tweet-scraper Apify actor, restricted to
the fields normalizeTweets reads. The author is optional, matching the
optional chaining t.author?.x in the source. -/
structure ApifyTweet where
  type : String
  id : String
  url : String
  text : String
  retweetCount : Nat
  replyCount : Nat
  likeCount : Nat
  createdAt : String
  isRetweet : Bool
  author : Option Author
deriving DecidableEq, Inhabited

/-- Normalized tweet for the analysis prompt. -/
structure NormalizedTweet where
  id : String
  text : String
  author : String
  author_followers : Nat
  likes : Nat
  retweets : Nat
  replies : Nat
  url : String
  created_at : String
deriving DecidableEq, Inhabited

/-- t.author?.followers || 0 : a missing author contributes 0 followers. -/
def authorFollowers (t : ApifyTweet) : Nat :=
  match t.author with
  | some a => a.followers
  | none => 0

/-- t.author?.userName || "unknown" : a missing author or an empty user
name (falsy in JavaScript) is replaced by "unknown". -/
def authorName (t : ApifyTweet) : String :=
  match t.author with
  | some a => if a.userName = "" then "unknown" else a.userName
  | none => "unknown"

/-- JavaScript whitespace test for String.prototype.trim, restricted to the
common ASCII whitespace characters. -/
def isWsChar (c : Char) : Bool := c = ' ' || c = '\t' || c = '\n' || c = '\r'

/-- Drop leading whitespace characters. -/
def dropLeadingWs : List Char → List Char
  | [] => []
  | c :: cs => if isWsChar c then dropLeadingWs cs else c :: cs

/-- The length of t.text.trim() in the source: drop whitespace from both
ends and count the remaining characters. -/
def jsTrimLength (s : String) : Nat :=
  (dropLeadingWs (dropLeadingWs s.data).reverse).length

/-- The predicate chain of normalizeTweets in index.ts (lines 208 to 218):
drop retweets, drop tweets with empty or near-empty text, drop items not
typed "tweet", and, when the configured minimum is set (JavaScript
truthiness: present and nonzero), drop tweets whose author has fewer
followers. -/
def keepTweet (minAuthorFollowers : Option Nat) (t : ApifyTweet) : Bool :=
  if t.isRetweet then false
  else if t.text = "" ∨ jsTrimLength t.text < 20 then false
  else if t.type ≠ "tweet" then false
  else if minAuthorFollowers.getD 0 ≠ 0 ∧ authorFollowers t < minAuthorFollowers.getD 0 then false
  else true

/-- The predicate chain of the part_003 variant of normalizeTweets (lines
162 to 170), which has no follower filtering. -/
def keepTweetScout (t : ApifyTweet) : Bool :=
  if t.isRetweet then false
  else if t.text = "" ∨ jsTrimLength t.text < 20 then false
  else if t.type ≠ "tweet" then false
  else true

/-- The deduplication loop of normalizeTweets in index.ts (lines 224 to
229): iterate over the filtered tweets, keeping a tweet only when its id
has not been seen before; output order is insertion order. -/
def dedupByIdGo (seen : List String) : List ApifyTweet → List ApifyTweet
  | [] => []
  | t :: ts =>
    if t.id ∈ seen then dedupByIdGo seen ts
    else t :: dedupByIdGo (t.id :: seen) ts

/-- Deduplicate a tweet list by id, keeping first occurrences. -/
def dedupById (l : List ApifyTweet) : List ApifyTweet := dedupByIdGo [] l

/-- The per-tweet projection of normalizeTweets (index.ts lines 232 to
243). The likeCount || 0 guards of the source are the identity on the
total Nat fields of this model. -/
def toNormalized (t : ApifyTweet) : NormalizedTweet :=
  { id := t.id
    text := t.text
    author := authorName t
    author_followers := authorFollowers t
    likes := t.likeCount
    retweets := t.retweetCount
    replies := t.replyCount
    url := t.url
    created_at := t.createdAt }

/-- The filter stage of normalizeTweets in index.ts. -/
def filteredTweets (minAuthorFollowers : Option Nat) (raw : List ApifyTweet) :
    List ApifyTweet :=
  raw.filter (keepTweet minAuthorFollowers)

/-- Filter then deduplicate: the intermediate tweet list of normalizeTweets
just before the final projection. -/
def filteredUniqueTweets (minAuthorFollowers : Option Nat) (raw : List ApifyTweet) :
    List ApifyTweet :=
  dedupById (filteredTweets minAuthorFollowers raw)

/-- normalizeTweets of index.ts and part_002: filter, deduplicate by id,
then project. -/
def normalizeTweets (minAuthorFollowers : Option Nat) (raw : List ApifyTweet) :
    List NormalizedTweet :=
  (filteredUniqueTweets minAuthorFollowers raw).map toNormalized

/-- normalizeTweets of the part_003 variant: filter then project, with no
deduplication. -/
def normalizeTweetsScout (raw : List ApifyTweet) : List NormalizedTweet :=
  (raw.filter keepTweetScout).map toNormalized

theorem dedupByIdGo_sublist (seen : List String) (l : List ApifyTweet) :
    List.Sublist (dedupByIdGo seen l) l := by
  induction l generalizing seen with
  | nil => simp [dedupByIdGo]
  | cons t ts ih =>
    simp only [dedupByIdGo]
    by_cases h : t.id ∈ seen
    · rw [if_pos h]; exact (ih seen).cons t
    · rw [if_neg h]; exact (ih (t.id :: seen)).cons₂ t

theorem id_not_mem_seen_of_mem_dedupByIdGo {seen : List String} {l : List ApifyTweet}
    {t : ApifyTweet} (h : t ∈ dedupByIdGo seen l) : t.id ∉ seen := by
  induction l generalizing seen with
  | nil => simp [dedupByIdGo] at h
  | cons x xs ih =>
    simp only [dedupByIdGo] at h
    by_cases hx : x.id ∈ seen
    · rw [if_pos hx] at h; exact ih h
    · rw [if_neg hx] at h
      rcases List.mem_cons.mp h with rfl | h'
      · exact hx
      · intro hc
        exact ih h' (List.mem_cons_of_mem _ hc)

theorem nodup_ids_dedupByIdGo (seen : List String) (l : List ApifyTweet) :
    ((dedupByIdGo seen l).map (fun t => t.id)).Nodup := by
  induction l generalizing seen with
  | nil => simp [dedupByIdGo]
  | cons x xs ih =>
    simp only [dedupByIdGo]
    by_cases hx : x.id ∈ seen
    · rw [if_pos hx]; exact ih seen
    · rw [if_neg hx]
      simp only [List.map_cons, List.nodup_cons]
      refine ⟨?_, ih (x.id :: seen)⟩
      intro hc
      rcases List.mem_map.mp hc with ⟨u, hu, hid⟩
      exact id_not_mem_seen_of_mem_dedupByIdGo hu (by rw [hid]; exact List.mem_cons_self _ _)

theorem dedupByIdGo_eq_self {seen : List String} {l : List ApifyTweet}
    (hn : (l.map (fun t => t.id)).Nodup) (hd : ∀ t ∈ l, t.id ∉ seen) :
    dedupByIdGo seen l = l := by
  induction l generalizing seen with
  | nil => rfl
  | cons x xs ih =>
    have hx : x.id ∉ xs.map (fun t => t.id) := (List.nodup_cons.mp (by simpa using hn)).1
    simp only [dedupByIdGo]
    rw [if_neg (hd x (List.mem_cons_self x xs))]
    congr 1
    refine ih (List.nodup_cons.mp (by simpa using hn)).2 ?_
    intro t ht hc
    rcases List.mem_cons.mp hc with h1 | h2
    · exact hx (h1 ▸ List.mem_map_of_mem _ ht)
    · exact hd t (List.mem_cons_of_mem _ ht) h2

theorem find?_dedupByIdGo {seen : List String} {l : List ApifyTweet} {t : ApifyTweet}
    (h : t ∈ dedupByIdGo seen l) :
    l.find? (fun u => u.id == t.id) = some t := by
  induction l generalizing seen with
  | nil => simp [dedupByIdGo] at h
  | cons x xs ih =>
    simp only [dedupByIdGo] at h
    by_cases hx : x.id ∈ seen
    · rw [if_pos hx] at h
      have hts : t.id ∉ seen := id_not_mem_seen_of_mem_dedupByIdGo h
      have hne : ¬ ((fun u => u.id == t.id) x = true) := by
        simp only [beq_iff_eq]
        intro he; exact hts (he ▸ hx)
      rw [@List.find?_cons_of_neg _ (fun u => u.id == t.id) x xs hne]
      exact ih h
    · rw [if_neg hx] at h
      rcases List.mem_cons.mp h with rfl | h'
      · exact List.find?_cons_of_pos _ (by simp)
      · have hts : t.id ∉ x.id :: seen := id_not_mem_seen_of_mem_dedupByIdGo h'
        have hne : ¬ ((fun u => u.id == t.id) x = true) := by
          simp only [beq_iff_eq]
          intro he; exact hts (he ▸ List.mem_cons_self _ _)
        rw [@List.find?_cons_of_neg _ (fun u => u.id == t.id) x xs hne]
        exact ih h'

theorem exists_dedupByIdGo_of_mem {seen : List String} {l : List ApifyTweet}
    {u : ApifyTweet} (hu : u ∈ l) :
    (∃ t ∈ dedupByIdGo seen l, t.id = u.id) ∨ u.id ∈ seen := by
  induction l generalizing seen with
  | nil => simp at hu
  | cons x xs ih =>
    simp only [dedupByIdGo]
    rcases List.mem_cons.mp hu with rfl | hmem
    · by_cases hx : u.id ∈ seen
      · right; exact hx
      · left
        rw [if_neg hx]
        exact ⟨u, List.mem_cons_self _ _, rfl⟩
    · by_cases hx : x.id ∈ seen
      · rw [if_pos hx]
        exact ih hmem
      · rw [if_neg hx]
        rcases @ih (x.id :: seen) hmem with ⟨t, ht, hid⟩ | hin
        · exact Or.inl ⟨t, List.mem_cons_of_mem _ ht, hid⟩
        · rcases List.mem_cons.mp hin with h1 | h2
          · exact Or.inl ⟨x, List.mem_cons_self _ _, h1.symm⟩
          · exact Or.inr h2

/-- A concrete scraped tweet passing every filter predicate. -/
def tweetDup : ApifyTweet :=
  { type := "tweet"
    id := "1001"
    url := "https://x.com/alice/status/1001"
    text := "a tweet text that is long enough to pass the filter"
    retweetCount := 1
    replyCount := 2
    likeCount := 3
    createdAt := "2026-01-01T00:00:00Z"
    isRetweet := false
    author := some { userName := "alice", followers := 100 } }

/-- Counterexample to claim C4 as stated: the part_003 variant of
normalizeTweets performs no deduplication, so a raw list containing the
same tweet twice yields two normalized items sharing the identifier 1001. -/
theorem normalizeTweetsScout_duplicate_ids_counterexample :
    ¬ (((normalizeTweetsScout [tweetDup, tweetDup]).map (fun n => n.id)).Nodup) := by
  decide

/-- Claim C4 (amended): the index.ts and part_002 normalization stage is
idempotent on its filtered output and never emits two items sharing an
identifier; the part_003 variant, which does not deduplicate, is still
idempotent on its filtered output, but can emit duplicate identifiers. -/
theorem normalize_idempotent_and_unique :
    (∀ minF raw, normalizeTweets minF (filteredUniqueTweets minF raw)
        = normalizeTweets minF raw)
    ∧ (∀ minF raw, ((normalizeTweets minF raw).map (fun n => n.id)).Nodup)
    ∧ (∀ raw, normalizeTweetsScout (raw.filter keepTweetScout) = normalizeTweetsScout raw) := by
  refine ⟨?_, ?_, ?_⟩
  · intro minF raw
    unfold normalizeTweets
    congr 1
    unfold filteredUniqueTweets
    have hfe : filteredTweets minF (dedupById (filteredTweets minF raw))
        = dedupById (filteredTweets minF raw) := by
      apply List.filter_eq_self.mpr
      intro t ht
      have htf : t ∈ filteredTweets minF raw := (dedupByIdGo_sublist [] _).subset ht
      exact List.of_mem_filter htf
    rw [hfe]
    unfold dedupById
    exact dedupByIdGo_eq_self (nodup_ids_dedupByIdGo [] _) (by intro t ht; simp)
  · intro minF raw
    have heq : (normalizeTweets minF raw).map (fun n => n.id)
        = (filteredUniqueTweets minF raw).map (fun t => t.id) := by
      rw [normalizeTweets, List.map_map]
      rfl
    rw [heq, filteredUniqueTweets, dedupById]
    exact nodup_ids_dedupByIdGo [] _
  · intro raw
    unfold normalizeTweetsScout
    congr 1
    apply List.filter_eq_self.mpr
    intro t ht
    exact List.of_mem_filter ht

theorem keepTweet_props {minF : Option Nat} {t : ApifyTweet}
    (h : keepTweet minF t = true) :
    t.isRetweet = false ∧ 20 ≤ jsTrimLength t.text ∧ t.type = "tweet"
      ∧ ∀ m, minF = some m → m ≤ authorFollowers t := by
  unfold keepTweet at h
  by_cases h1 : t.isRetweet
  · simp [h1] at h
  · rw [if_neg h1] at h
    by_cases h2 : t.text = "" ∨ jsTrimLength t.text < 20
    · simp [h2] at h
    · rw [if_neg h2] at h
      push_neg at h2
      by_cases h3 : t.type ≠ "tweet"
      · simp [h3] at h
      · rw [if_neg h3] at h
        push_neg at h3
        refine ⟨by simpa using h1, h2.2, h3, ?_⟩
        intro m hm
        subst hm
        by_cases h4 : (some m : Option Nat).getD 0 ≠ 0
            ∧ authorFollowers t < (some m : Option Nat).getD 0
        · rw [if_pos h4] at h
          exact absurd h (by simp)
        · push_neg at h4
          simp only [Option.getD_some] at h4
          by_cases h5 : m = 0
          · omega
          · have := h4 (by simpa using h5)
            omega

theorem keepTweetScout_props {t : ApifyTweet} (h : keepTweetScout t = true) :
    t.isRetweet = false ∧ 20 ≤ jsTrimLength t.text ∧ t.type = "tweet" := by
  unfold keepTweetScout at h
  by_cases h1 : t.isRetweet
  · simp [h1] at h
  · rw [if_neg h1] at h
    by_cases h2 : t.text = "" ∨ jsTrimLength t.text < 20
    · simp [h2] at h
    · rw [if_neg h2] at h
      push_neg at h2
      by_cases h3 : t.type ≠ "tweet"
      · simp [h3] at h
      · push_neg at h3
        exact ⟨by simpa using h1, h2.2, h3⟩

/-- Claim C5: every item emitted by the normalization stage comes from a
raw tweet that is not a repost, whose trimmed text has at least 20
characters, whose type tag is "tweet", and, when the minimum-follower
threshold is set, whose emitted follower count is at least the threshold;
the part_003 variant satisfies the first three predicates (it has no
follower filter). -/
theorem normalize_emits_only_filtered :
    (∀ minF raw n, n ∈ normalizeTweets minF raw →
      ∃ t, t ∈ raw ∧ n = toNormalized t ∧ t.isRetweet = false
        ∧ 20 ≤ jsTrimLength t.text ∧ t.type = "tweet"
        ∧ ∀ m, minF = some m → m ≤ n.author_followers)
    ∧ (∀ raw n, n ∈ normalizeTweetsScout raw →
      ∃ t, t ∈ raw ∧ n = toNormalized t ∧ t.isRetweet = false
        ∧ 20 ≤ jsTrimLength t.text ∧ t.type = "tweet") := by
  constructor
  · intro minF raw n hn
    rcases List.mem_map.mp hn with ⟨t, ht, rfl⟩
    have htf : t ∈ filteredTweets minF raw := (dedupByIdGo_sublist [] _).subset ht
    have hkeep := List.of_mem_filter htf
    have hraw := List.mem_of_mem_filter htf
    obtain ⟨hr, hl, hty, hm⟩ := keepTweet_props hkeep
    exact ⟨t, hraw, rfl, hr, hl, hty, fun m hm2 => hm m hm2⟩
  · intro raw n hn
    rcases List.mem_map.mp hn with ⟨t, ht, rfl⟩
    have hkeep := List.of_mem_filter ht
    have hraw := List.mem_of_mem_filter ht
    obtain ⟨hr, hl, hty⟩ := keepTweetScout_props hkeep
    exact ⟨t, hraw, rfl, hr, hl, hty⟩

theorem normalize_emits_only_filtered_witness :
    toNormalized tweetDup ∈ normalizeTweets (some 50) [tweetDup]
    ∧ ∃ t, t ∈ [tweetDup] ∧ toNormalized tweetDup = toNormalized t
        ∧ t.isRetweet = false ∧ 20 ≤ jsTrimLength t.text ∧ t.type = "tweet"
        ∧ ∀ m, (some 50 : Option Nat) = some m
            → m ≤ (toNormalized tweetDup).author_followers :=
  ⟨by decide,
   normalize_emits_only_filtered.1 (some 50) [tweetDup] (toNormalized tweetDup) (by decide)⟩

/-- Claim C9: the normalization stage deduplicates by tweet id, keeping the
first occurrence among the filtered tweets, and emits items in the relative
order in which the source returned them (the intermediate and emitted lists
are sublists of the source list and of its projection). Every filtered
tweet id survives into the output. -/
theorem normalize_dedup_first_in_order (minF : Option Nat) (raw : List ApifyTweet) :
    List.Sublist (filteredUniqueTweets minF raw) raw
    ∧ List.Sublist (normalizeTweets minF raw) (raw.map toNormalized)
    ∧ (∀ t ∈ filteredUniqueTweets minF raw,
        (filteredTweets minF raw).find? (fun u => u.id == t.id) = some t)
    ∧ (∀ u ∈ filteredTweets minF raw,
        ∃ t ∈ filteredUniqueTweets minF raw, t.id = u.id) := by
  refine ⟨?_, ?_, ?_, ?_⟩
  · exact (dedupByIdGo_sublist [] _).trans (List.filter_sublist raw)
  · exact ((dedupByIdGo_sublist [] _).trans (List.filter_sublist raw)).map toNormalized
  · intro t ht
    exact find?_dedupByIdGo ht
  · intro u hu
    rcases @exists_dedupByIdGo_of_mem [] _ u hu with h | h
    · exact h
    · simp at h

/-- A second tweet sharing the identifier of tweetDup but with different
content, and a tweet with a fresh identifier. -/
def tweetDupLater : ApifyTweet :=
  { tweetDup with
    text := "another sufficiently long tweet text with the same identifier"
    likeCount := 9 }

def tweetOther : ApifyTweet :=
  { tweetDup with
    id := "2002"
    url := "https://x.com/bob/status/2002"
    text := "a different tweet that also clears the length filter"
    author := some { userName := "bob", followers := 7 } }

theorem normalize_dedup_first_in_order_witness :
    List.Sublist (filteredUniqueTweets none [tweetOther, tweetDup, tweetDupLater])
      [tweetOther, tweetDup, tweetDupLater]
    ∧ (filteredTweets none [tweetOther, tweetDup, tweetDupLater]).find?
        (fun u => u.id == tweetDup.id) = some tweetDup := by
  have h := normalize_dedup_first_in_order none [tweetOther, tweetDup, tweetDupLater]
  exact ⟨h.1, h.2.2.1 tweetDup (by decide)⟩

/- ------------------------------------------------------------------ -/
/- Trading agent: run trigger and continuation dispatch (part_000)     -/
/- ------------------------------------------------------------------ -/

/-- The two code paths of POST /agent/run in part_000. -/
inductive RoutePath
  | continuation
  | freshRun
deriving DecidableEq

/-- JavaScript truthiness of an optional header value: an absent header is
undefined and an empty header value is the empty string; both are falsy. -/
def headerTruthy : Option String → Bool
  | none => false
  | some s => s != ""

/-- The dispatch of part_000 routes (lines 371 to 384): continuation when
sessionId and requestId are both truthy, otherwise a fresh workflow. -/
def dispatchRun (sessionId requestId : Option String) : RoutePath :=
  if headerTruthy sessionId && headerTruthy requestId then .continuation
  else .freshRun

/-- Counterexample to claim C6 as stated: both correlation headers are
present, but the session id header carries the empty string, which is
falsy in JavaScript, so the request is routed to the fresh-run path. -/
theorem dispatchRun_present_empty_counterexample :
    (some "" : Option String).isSome = true
    ∧ (some "req-1" : Option String).isSome = true
    ∧ dispatchRun (some "") (some "req-1") = RoutePath.freshRun := by
  decide

/-- Claim C6 (amended): POST /agent/run routes to the continuation path iff
both correlation headers are present with non-empty values; in every other
case, including exactly one header present or a header present with an
empty value, it runs the fresh-run path. -/
theorem dispatchRun_continuation_iff (sessionId requestId : Option String) :
    (dispatchRun sessionId requestId = RoutePath.continuation
      ↔ (∃ s, sessionId = some s ∧ s ≠ "") ∧ (∃ r, requestId = some r ∧ r ≠ ""))
    ∧ (dispatchRun sessionId requestId = RoutePath.freshRun
      ↔ ¬ ((∃ s, sessionId = some s ∧ s ≠ "") ∧ (∃ r, requestId = some r ∧ r ≠ ""))) := by
  cases sessionId with
  | none => simp [dispatchRun, headerTruthy]
  | some s =>
    cases requestId with
    | none => simp [dispatchRun, headerTruthy]
    | some r =>
      by_cases hs : s = "" <;> by_cases hr : r = "" <;>
        simp [dispatchRun, headerTruthy, hs, hr]

/- ------------------------------------------------------------------ -/
/- Trading agent: continuation path handleTradeExecution (part_000)    -/
/- ------------------------------------------------------------------ -/

/-- Session status enum of the OpenSink SDK. -/
inductive SessionStatus
  | RUNNING
  | COMPLETED
  | FAILED
deriving DecidableEq

/-- Store writes performed by the continuation path, in order. The
createTradeItems write records how many executed-trade sink items the bulk
call persists. The executedAt timestamp stamped on executed trades comes
from the runtime clock and carries no logical content, so it is not
modelled. -/
inductive TradeWrite
  | updateRejected
  | updateExecuting
  | createTradeItems (count : Nat)
  | updateCompleted
  | updateFailed (message : String)
deriving DecidableEq

/-- The environment of one continuation call: the proposed trades read back
from the session state (state.proposedTrades || []), the recorded response
of the input request, and the outcomes of the store calls the continuation
may perform. -/
structure ContEnv where
  proposedTrades : List Trade
  response : Option ApprovalResponse
  updateRejected : Except String Unit
  updateExecuting : Except String Unit
  createTradeItems : Except String Unit
  updateCompleted : Except String Unit

/-- The JSON payload returned by handleTradeExecution, restricted to the
fields shared across its return sites. -/
structure ContResult where
  success : Bool
  status : Option String
  reason : Option String
  executedCount : Option Nat
  rejectedCount : Option Nat
deriving DecidableEq

/-- The try block of handleTradeExecution (part_000 lines 269 to 355): an
error value is a thrown exception carrying the writes already performed. -/
def tradeContinuationBody (env : ContEnv) :
    Except (List TradeWrite × String) (List TradeWrite × ContResult) :=
  match env.response with
  | none =>
    .ok ([], { success := false, status := none, reason := some "No response found",
               executedCount := none, rejectedCount := none })
  | some resp =>
    let approvedTrades := (splitTrades resp.decisions env.proposedTrades).1
    let rejectedTrades := (splitTrades resp.decisions env.proposedTrades).2
    if approvedTrades.length = 0 then
      match env.updateRejected with
      | .error e => .error ([], e)
      | .ok _ =>
        .ok ([TradeWrite.updateRejected],
             { success := true, status := some "rejected", reason := none,
               executedCount := none, rejectedCount := some rejectedTrades.length })
    else
      match env.updateExecuting with
      | .error e => .error ([], e)
      | .ok _ =>
        match env.createTradeItems with
        | .error e => .error ([TradeWrite.updateExecuting], e)
        | .ok _ =>
          match env.updateCompleted with
          | .error e =>
            .error ([TradeWrite.updateExecuting,
                     TradeWrite.createTradeItems approvedTrades.length], e)
          | .ok _ =>
            .ok ([TradeWrite.updateExecuting,
                  TradeWrite.createTradeItems approvedTrades.length,
                  TradeWrite.updateCompleted],
                 { success := true, status := some "executed", reason := none,
                   executedCount := some approvedTrades.length,
                   rejectedCount := some rejectedTrades.length })

/-- handleTradeExecution with its catch block: a thrown error marks the
session FAILED with the error message and returns a failure payload. -/
def handleTradeExecution (env : ContEnv) : List TradeWrite × ContResult :=
  match tradeContinuationBody env with
  | .ok r => r
  | .error (ws, e) =>
    (ws ++ [TradeWrite.updateFailed e],
     { success := false, status := none, reason := some e,
       executedCount := none, rejectedCount := none })

/-- Claim C7: when the retrieved input request carries a null response, the
continuation returns success false with reason "No response found" and
performs no store write at all. -/
theorem handleTradeExecution_no_response (env : ContEnv)
    (h : env.response = none) :
    handleTradeExecution env =
      ([], { success := false, status := none, reason := some "No response found",
             executedCount := none, rejectedCount := none }) := by
  unfold handleTradeExecution tradeContinuationBody
  rw [h]

/-- A continuation environment whose input request has no recorded
response yet. -/
def contEnvNoResponse : ContEnv :=
  { proposedTrades := tradesC1
    response := none
    updateRejected := .ok ()
    updateExecuting := .ok ()
    createTradeItems := .ok ()
    updateCompleted := .ok () }

theorem handleTradeExecution_no_response_witness :
    contEnvNoResponse.response = none
    ∧ handleTradeExecution contEnvNoResponse =
        ([], { success := false, status := none, reason := some "No response found",
               executedCount := none, rejectedCount := none }) :=
  ⟨rfl, handleTradeExecution_no_response contEnvNoResponse rfl⟩

/- ------------------------------------------------------------------ -/
/- Structured extraction: JSON.parse with the pre-seeded fallback      -/
/- ------------------------------------------------------------------ -/

/-- JSON values. Numbers are modelled as integers: the parser consumes
fractional and exponent parts but represents only the integral part, which
is enough for every payload the claims touch. -/
inductive Json where
  | null
  | bool (b : Bool)
  | num (n : Int)
  | str (s : String)
  | arr (items : List Json)
  | obj (fields : List (String × Json))

instance : Inhabited Json := ⟨Json.null⟩

def quoteChar : Char := Char.ofNat 34

def lbraceChar : Char := Char.ofNat 123

def rbraceChar : Char := Char.ofNat 125

def backslashChar : Char := Char.ofNat 92

/-- Drop leading JSON whitespace. -/
def skipWs : List Char → List Char
  | [] => []
  | c :: cs => if isWsChar c then skipWs cs else c :: cs

/-- Minimal escape handling inside JSON strings: the common single
character escapes map to their characters; unknown escapes map to the
escaped character itself. -/
def escapeChar (e : Char) : Char :=
  if e = 'n' then Char.ofNat 10
  else if e = 't' then Char.ofNat 9
  else if e = 'r' then Char.ofNat 13
  else e

/-- Parse the body of a JSON string after the opening quote, up to and
including the closing quote. -/
def parseStringBody : Nat → List Char → Option (String × List Char)
  | 0, _ => none
  | _, [] => none
  | fuel + 1, c :: cs =>
    if c = quoteChar then some ("", cs)
    else if c = backslashChar then
      match cs with
      | [] => none
      | e :: cs2 =>
        match parseStringBody fuel cs2 with
        | some (s, rest) => some (String.mk [escapeChar e] ++ s, rest)
        | none => none
    else
      match parseStringBody fuel cs with
      | some (s, rest) => some (String.mk [c] ++ s, rest)
      | none => none

def isDigitChar (c : Char) : Bool := 48 ≤ c.toNat && c.toNat ≤ 57

def takeDigits : List Char → (List Char × List Char)
  | [] => ([], [])
  | c :: cs =>
    if isDigitChar c then
      let r := takeDigits cs
      (c :: r.1, r.2)
    else ([], c :: cs)

def digitsToNat (ds : List Char) : Nat :=
  ds.foldl (fun a c => a * 10 + (c.toNat - 48)) 0

/-- Consume an optional fraction part and an optional exponent part. -/
def skipNumTail (l : List Char) : List Char :=
  let l1 :=
    match l with
    | c :: cs => if c = '.' then (takeDigits cs).2 else l
    | [] => l
  match l1 with
  | c :: cs =>
    if c = 'e' ∨ c = 'E' then
      match cs with
      | s :: cs2 => if s = '+' ∨ s = '-' then (takeDigits cs2).2 else (takeDigits cs).2
      | [] => cs
    else l1
  | [] => l1

/-- Parse a JSON number token, keeping its integral part. -/
def parseNumberToken (l : List Char) : Option (Int × List Char) :=
  match l with
  | [] => none
  | c :: cs =>
    if c = '-' then
      match takeDigits cs with
      | ([], _) => none
      | (ds, rest) => some (-(digitsToNat ds : Int), skipNumTail rest)
    else
      match takeDigits (c :: cs) with
      | ([], _) => none
      | (ds, rest) => some ((digitsToNat ds : Int), skipNumTail rest)

mutual

/-- Recursive descent JSON value parser, fuelled to keep the recursion
structural. -/
def parseValue : Nat → List Char → Option (Json × List Char)
  | 0, _ => none
  | fuel + 1, input =>
    match skipWs input with
    | [] => none
    | c :: cs =>
      if c = quoteChar then
        match parseStringBody (fuel + 1) cs with
        | some (s, rest) => some (Json.str s, rest)
        | none => none
      else if c = lbraceChar then
        match parseObjectFields fuel cs with
        | some (kvs, rest) => some (Json.obj kvs, rest)
        | none => none
      else if c = '[' then
        match parseArrayItems fuel cs with
        | some (js, rest) => some (Json.arr js, rest)
        | none => none
      else if c = 't' then
        match cs with
        | 'r' :: 'u' :: 'e' :: rest => some (Json.bool true, rest)
        | _ => none
      else if c = 'f' then
        match cs with
        | 'a' :: 'l' :: 's' :: 'e' :: rest => some (Json.bool false, rest)
        | _ => none
      else if c = 'n' then
        match cs with
        | 'u' :: 'l' :: 'l' :: rest => some (Json.null, rest)
        | _ => none
      else
        match parseNumberToken (c :: cs) with
        | some (n, rest) => some (Json.num n, rest)
        | none => none

/-- Parse the items of an array after the opening bracket. -/
def parseArrayItems : Nat → List Char → Option (List Json × List Char)
  | 0, _ => none
  | fuel + 1, l =>
    match skipWs l with
    | [] => none
    | c :: cs =>
      if c = ']' then some ([], cs)
      else
        match parseValue fuel (c :: cs) with
        | none => none
        | some (j, rest) =>
          match parseArrayRest fuel rest with
          | some (js, rest2) => some (j :: js, rest2)
          | none => none

/-- Parse the continuation of an array: a comma and a value, or the
closing bracket. -/
def parseArrayRest : Nat → List Char → Option (List Json × List Char)
  | 0, _ => none
  | fuel + 1, l =>
    match skipWs l with
    | [] => none
    | c :: cs =>
      if c = ']' then some ([], cs)
      else if c = ',' then
        match parseValue fuel cs with
        | none => none
        | some (j, rest) =>
          match parseArrayRest fuel rest with
          | some (js, rest2) => some (j :: js, rest2)
          | none => none
      else none

/-- Parse one key and value of an object. -/
def parseMember : Nat → List Char → Option ((String × Json) × List Char)
  | 0, _ => none
  | fuel + 1, l =>
    match skipWs l with
    | [] => none
    | c :: cs =>
      if c = quoteChar then
        match parseStringBody (fuel + 1) cs with
        | none => none
        | some (k, rest) =>
          match skipWs rest with
          | ':' :: rest2 =>
            match parseValue fuel rest2 with
            | none => none
            | some (v, rest3) => some ((k, v), rest3)
          | _ => none
      else none

/-- Parse the fields of an object after the opening brace. -/
def parseObjectFields : Nat → List Char → Option (List (String × Json) × List Char)
  | 0, _ => none
  | fuel + 1, l =>
    match skipWs l with
    | [] => none
    | c :: cs =>
      if c = rbraceChar then some ([], cs)
      else
        match parseMember fuel (c :: cs) with
        | none => none
        | some (kv, rest) =>
          match parseObjectRest fuel rest with
          | some (kvs, rest2) => some (kv :: kvs, rest2)
          | none => none

/-- Parse the continuation of an object: a comma and a member, or the
closing brace. -/
def parseObjectRest : Nat → List Char → Option (List (String × Json) × List Char)
  | 0, _ => none
  | fuel + 1, l =>
    match skipWs l with
    | [] => none
    | c :: cs =>
      if c = rbraceChar then some ([], cs)
      else if c = ',' then
        match parseMember fuel cs with
        | none => none
        | some (kv, rest) =>
          match parseObjectRest fuel rest with
          | some (kvs, rest2) => some (kv :: kvs, rest2)
          | none => none
      else none

end

/-- JSON.parse: parse one value and require only trailing whitespace. A
none result models a thrown SyntaxError. -/
def jsonParse (s : String) : Option Json :=
  match parseValue (s.length + 1) s.data with
  | some (j, rest) => if skipWs rest = [] then some j else none
  | none => none

/-- The pre-seeded parse fallback of pickTopArticles in app.ts line 80 and
part_000 line 97. -/
def DEFAULT_ARTICLES_JSON : String := "\x7b\"articles\":[]\x7d"

/-- The pre-seeded parse fallback of the four marketing analyses
(index.ts lines 338, 423, 509, 598). -/
def DEFAULT_ITEMS_JSON : String := "\x7b\"items\":[]\x7d"

/-- The pre-seeded parse fallback of analyzeTwitterData in part_003 line
366: the empty-object string, with no array members at all. -/
def DEFAULT_EMPTY_OBJECT_JSON : String := "\x7b\x7d"

/-- response.choices[0].message.content || defaultJson : a null or empty
message content is falsy and is replaced by the pre-seeded default. -/
def contentOrDefault (dflt : String) : Option String → String
  | none => dflt
  | some s => if s = "" then dflt else s

/-- Property access result.key on the parsed value: undefined unless the
value is an object carrying the key. -/
def jsonMember (key : String) : Json → Option Json
  | Json.obj fields => fields.lookup key
  | _ => none

/-- The structured-extraction parse stage: JSON.parse on the message
content or the pre-seeded default, then the bare property access that the
source performs, with no further validation. -/
def structuredArrayStage (key dflt : String) (content : Option String) : Option Json :=
  (jsonParse (contentOrDefault dflt content)).bind (jsonMember key)

/-- Counterexample to claim C8 as stated: the analyzeTwitterData parse
site of part_003 (line 366) pre-seeds the empty-object string as its
fallback, not an empty-array JSON string. With an absent message content
the parse succeeds on an object carrying no members, so the collection
lookup is undefined rather than an empty collection. -/
theorem scout_extraction_empty_object_counterexample :
    contentOrDefault DEFAULT_EMPTY_OBJECT_JSON none = DEFAULT_EMPTY_OBJECT_JSON
    ∧ DEFAULT_EMPTY_OBJECT_JSON ≠ DEFAULT_ARTICLES_JSON
    ∧ DEFAULT_EMPTY_OBJECT_JSON ≠ DEFAULT_ITEMS_JSON
    ∧ jsonParse DEFAULT_EMPTY_OBJECT_JSON = some (Json.obj [])
    ∧ structuredArrayStage "comment_opportunities" DEFAULT_EMPTY_OBJECT_JSON none = none
    ∧ structuredArrayStage "comment_opportunities" DEFAULT_EMPTY_OBJECT_JSON none
        ≠ some (Json.arr []) := by
  have h5 : structuredArrayStage "comment_opportunities" DEFAULT_EMPTY_OBJECT_JSON none
      = none := rfl
  refine ⟨rfl, by decide, by decide, rfl, h5, ?_⟩
  rw [h5]
  exact fun h => Option.noConfusion h

/-- Claim C8 (amended): for the app.ts pickTopArticles and the four
index.ts analyses, an empty or absent model message makes the extraction
stage parse the pre-seeded default empty-array JSON string, so it yields
the empty collection instead of throwing; whatever value parses under the
key is passed through unvalidated, as witnessed by a schema-shaped payload
with a hallucinated URL being accepted as-is. The part_003
analyzeTwitterData, whose pre-seeded fallback is the empty-object string,
instead parses to an object with no array members, so its collection
lookups are undefined rather than empty. -/
theorem structured_extraction_fallback (content : Option String)
    (h : content = none ∨ content = some "") :
    contentOrDefault DEFAULT_ARTICLES_JSON content = DEFAULT_ARTICLES_JSON
    ∧ structuredArrayStage "articles" DEFAULT_ARTICLES_JSON content = some (Json.arr [])
    ∧ contentOrDefault DEFAULT_ITEMS_JSON content = DEFAULT_ITEMS_JSON
    ∧ structuredArrayStage "items" DEFAULT_ITEMS_JSON content = some (Json.arr [])
    ∧ structuredArrayStage "articles" DEFAULT_ARTICLES_JSON
        (some "\x7b\"articles\":[\x7b\"url\":\"https://hallucinated.example\"\x7d]\x7d")
        = some (Json.arr [Json.obj [("url", Json.str "https://hallucinated.example")]])
    ∧ contentOrDefault DEFAULT_EMPTY_OBJECT_JSON content = DEFAULT_EMPTY_OBJECT_JSON
    ∧ structuredArrayStage "comment_opportunities" DEFAULT_EMPTY_OBJECT_JSON content
        = none := by
  rcases h with rfl | rfl
  · exact ⟨rfl, rfl, rfl, rfl, rfl, rfl, rfl⟩
  · exact ⟨rfl, rfl, rfl, rfl, rfl, rfl, rfl⟩

theorem structured_extraction_fallback_witness :
    ((none : Option String) = none ∨ (none : Option String) = some "")
    ∧ structuredArrayStage "articles" DEFAULT_ARTICLES_JSON none = some (Json.arr [])
    ∧ structuredArrayStage "comment_opportunities" DEFAULT_EMPTY_OBJECT_JSON none = none :=
  ⟨Or.inl rfl, (structured_extraction_fallback none (Or.inl rfl)).2.1,
   (structured_extraction_fallback none (Or.inl rfl)).2.2.2.2.2.2⟩

/- ------------------------------------------------------------------ -/
/- Finance-news agent pipeline (app.ts)                                -/
/- ------------------------------------------------------------------ -/

structure RawArticle where
  title : String
  description : String
  url : String
deriving DecidableEq, Inhabited

structure Article where
  title : String
  url : String
  summary : String
  category : String
deriving DecidableEq, Inhabited

/-- The agent configuration of the finance-news agent. -/
structure FinanceConfig where
  enabled : Bool
  newItemsCount : Nat
deriving DecidableEq, Inhabited

/-- A session record as this run leaves it in the store. -/
structure SessionRec where
  status : SessionStatus
  errorMessage : Option String
deriving DecidableEq

/-- The awaited stages of the finance run body, in program order. -/
inductive FinanceStage
  | fetchNews
  | pickTop
  | updateArticles
  | createSinkItems
  | completeSession
deriving DecidableEq

def financeStageOrder : List FinanceStage :=
  [FinanceStage.fetchNews, FinanceStage.pickTop, FinanceStage.updateArticles,
   FinanceStage.createSinkItems, FinanceStage.completeSession]

/-- The state a finance run accumulates: its session record, if created,
and the trace of stages it has invoked. -/
structure FinanceState where
  session : Option SessionRec
  trace : List FinanceStage
deriving DecidableEq

/-- The outcome payload of one run, restricted to the fields every return
site shares. -/
structure RunResult where
  success : Bool
  reason : Option String
deriving DecidableEq

/-- The environment of one finance run: the fetched configuration and the
outcome of each external call the body awaits. -/
structure FinanceEnv where
  config : FinanceConfig
  news : Except String (List RawArticle)
  pickTop : Except String (List Article)
  updateArticlesState : Except String Unit
  createMany : Except String Nat
  updateCompleted : Except String Unit

/-- Invoke one awaited stage: record it in the trace, then either pass its
value on or propagate the thrown error together with the state so far. -/
def finStage {α : Type} (tag : FinanceStage) (r : Except String α) (st : FinanceState) :
    Except (FinanceState × String) (FinanceState × α) :=
  let st2 : FinanceState := { st with trace := st.trace ++ [tag] }
  match r with
  | .ok a => .ok (st2, a)
  | .error e => .error (st2, e)

/-- The try block of the finance run (app.ts lines 138 to 210). -/
def financeBody (env : FinanceEnv) (st0 : FinanceState) :
    Except (FinanceState × String) (FinanceState × RunResult) :=
  match finStage FinanceStage.fetchNews env.news st0 with
  | .error pe => .error pe
  | .ok (st1, _) =>
    match finStage FinanceStage.pickTop env.pickTop st1 with
    | .error pe => .error pe
    | .ok (st2, _) =>
      match finStage FinanceStage.updateArticles env.updateArticlesState st2 with
      | .error pe => .error pe
      | .ok (st3, _) =>
        match finStage FinanceStage.createSinkItems env.createMany st3 with
        | .error pe => .error pe
        | .ok (st4, _) =>
          match finStage FinanceStage.completeSession env.updateCompleted st4 with
          | .error pe => .error pe
          | .ok (st5, _) =>
            .ok ({ st5 with
                   session := some { status := SessionStatus.COMPLETED, errorMessage := none } },
                 { success := true, reason := none })

def financeInitialState : FinanceState := { session := none, trace := [] }

/-- POST /agent/run of the finance-news agent: the disabled check before
any session exists, then session creation, the try block, and the catch
block that marks the session FAILED with the thrown message and returns
the in-band failure payload. -/
def financeRun (env : FinanceEnv) : FinanceState × RunResult :=
  if env.config.enabled = false then
    (financeInitialState, { success := false, reason := some "Agent is disabled" })
  else
    let st0 : FinanceState :=
      { session := some { status := SessionStatus.RUNNING, errorMessage := none }, trace := [] }
    match financeBody env st0 with
    | .ok r => r
    | .error (st, e) =>
      ({ st with session := some { status := SessionStatus.FAILED, errorMessage := some e } },
       { success := false, reason := some e })

/-- The index of the first stage whose external call throws, with its
message, in program order. -/
def financeFirstFailure (env : FinanceEnv) : Option (Nat × String) :=
  match env.news with
  | .error e => some (0, e)
  | .ok _ =>
    match env.pickTop with
    | .error e => some (1, e)
    | .ok _ =>
      match env.updateArticlesState with
      | .error e => some (2, e)
      | .ok _ =>
        match env.createMany with
        | .error e => some (3, e)
        | .ok _ =>
          match env.updateCompleted with
          | .error e => some (4, e)
          | .ok _ => none

/-- Claim C2: whenever any stage after session creation throws, the run
marks the session FAILED with the thrown message as error_message,
returns success false with that message as reason, and executes exactly
the stages up to and including the failing one: nothing is retried and the
remainder of the pipeline never runs. -/
theorem financeRun_failure (env : FinanceEnv) (k : Nat) (e : String)
    (hen : env.config.enabled = true)
    (hff : financeFirstFailure env = some (k, e)) :
    financeRun env =
      ({ session := some { status := SessionStatus.FAILED, errorMessage := some e },
         trace := financeStageOrder.take (k + 1) },
       { success := false, reason := some e }) := by
  unfold financeRun
  rw [if_neg (by simp [hen])]
  unfold financeFirstFailure at hff
  cases h1 : env.news with
  | error e1 =>
    rw [h1] at hff
    simp only [Option.some.injEq, Prod.mk.injEq] at hff
    obtain ⟨hk, he⟩ := hff
    subst hk; subst he
    simp [financeBody, finStage, h1, financeStageOrder]
  | ok a1 =>
    rw [h1] at hff
    cases h2 : env.pickTop with
    | error e2 =>
      rw [h2] at hff
      simp only [Option.some.injEq, Prod.mk.injEq] at hff
      obtain ⟨hk, he⟩ := hff
      subst hk; subst he
      simp [financeBody, finStage, h1, h2, financeStageOrder]
    | ok a2 =>
      rw [h2] at hff
      cases h3 : env.updateArticlesState with
      | error e3 =>
        rw [h3] at hff
        simp only [Option.some.injEq, Prod.mk.injEq] at hff
        obtain ⟨hk, he⟩ := hff
        subst hk; subst he
        simp [financeBody, finStage, h1, h2, h3, financeStageOrder]
      | ok a3 =>
        rw [h3] at hff
        cases h4 : env.createMany with
        | error e4 =>
          rw [h4] at hff
          simp only [Option.some.injEq, Prod.mk.injEq] at hff
          obtain ⟨hk, he⟩ := hff
          subst hk; subst he
          simp [financeBody, finStage, h1, h2, h3, h4, financeStageOrder]
        | ok a4 =>
          rw [h4] at hff
          cases h5 : env.updateCompleted with
          | error e5 =>
            rw [h5] at hff
            simp only [Option.some.injEq, Prod.mk.injEq] at hff
            obtain ⟨hk, he⟩ := hff
            subst hk; subst he
            simp [financeBody, finStage, h1, h2, h3, h4, h5, financeStageOrder]
          | ok a5 =>
            rw [h5] at hff
            simp at hff

def financeEnvC2 : FinanceEnv :=
  { config := { enabled := true, newItemsCount := 5 }
    news := .ok []
    pickTop := .error "model call failed"
    updateArticlesState := .ok ()
    createMany := .ok 0
    updateCompleted := .ok () }

theorem financeRun_failure_witness :
    financeEnvC2.config.enabled = true
    ∧ financeFirstFailure financeEnvC2 = some (1, "model call failed")
    ∧ financeRun financeEnvC2 =
        ({ session := some { status := SessionStatus.FAILED,
                             errorMessage := some "model call failed" },
           trace := financeStageOrder.take 2 },
         { success := false, reason := some "model call failed" }) :=
  ⟨rfl, rfl, financeRun_failure financeEnvC2 1 "model call failed" rfl rfl⟩

/- ------------------------------------------------------------------ -/
/- Marketing agent pipeline (index.ts)                                 -/
/- ------------------------------------------------------------------ -/

structure CommentOpportunity where
  tweet_text : String
  tweet_url : String
  author : String
  author_followers : Nat
  why_comment : String
  suggested_angle : String
  engagement_score : Nat
deriving DecidableEq, Inhabited

structure TrendEvidence where
  text : String
  url : String
  author : String
deriving DecidableEq, Inhabited

/-- The sentiment and effort enums of the schemas are kept as strings. -/
structure Trend where
  theme : String
  evidence_tweets : List TrendEvidence
  sentiment : String
  company_relevance : String
deriving DecidableEq, Inhabited

structure SourceTweet where
  url : String
  author : String
deriving DecidableEq, Inhabited

structure NewTool where
  name : String
  description : String
  url : String
  relationship : String
  company_relevance : String
  source_tweets : List SourceTweet
deriving DecidableEq, Inhabited

structure TutorialIdea where
  title : String
  why_timely : String
  outline : List String
  effort : String
  source_tweets : List SourceTweet
deriving DecidableEq, Inhabited

/-- The four sink ids of the marketing configuration. An absent id is the
empty string, which is falsy in JavaScript. -/
structure SinkIds where
  opportunities : String
  trends : String
  tools : String
  tutorials : String
deriving DecidableEq, Inhabited

structure MarketingConfig where
  enabled : Bool
  keywords : List String
  maxItems : Nat
  companyName : String
  companyWebsite : String
  companyDescription : String
  founderName : String
  founderContext : String
  sinks : Option SinkIds
  minAuthorFollowers : Option Nat
deriving DecidableEq

def sinkTruthy (s : String) : Bool := s != ""

/-- The check !config.sinks || none-of-the-four-truthy in index.ts. -/
def sinksConfigured : Option SinkIds → Bool
  | none => false
  | some s =>
    sinkTruthy s.opportunities || sinkTruthy s.trends
      || sinkTruthy s.tools || sinkTruthy s.tutorials

def sinksOrEmpty : Option SinkIds → SinkIds
  | none => { opportunities := "", trends := "", tools := "", tutorials := "" }
  | some s => s

/-- The awaited stages of the marketing run body, in program order. -/
inductive MStage
  | updateScraping
  | scrape
  | updateNoTweets
  | updateAnalyzing
  | llmOpportunities
  | llmTrends
  | llmTools
  | llmTutorials
  | updateStoring
  | sinkOpportunities
  | sinkTrends
  | sinkTools
  | sinkTutorials
  | updateCompleted
deriving DecidableEq

/-- A marketing session record, including the free-form state payload the
run keeps overwriting. -/
structure MSession where
  status : SessionStatus
  errorMessage : Option String
  state : Option Json

structure MarketingState where
  session : Option MSession
  trace : List MStage

structure MarketingEnv where
  config : MarketingConfig
  updateScraping : Except String Unit
  scrape : Except String (List ApifyTweet)
  updateNoTweets : Except String Unit
  updateAnalyzing : Except String Unit
  llmOpportunities : Except String (List CommentOpportunity)
  llmTrends : Except String (List Trend)
  llmTools : Except String (List NewTool)
  llmTutorials : Except String (List TutorialIdea)
  updateStoring : Except String Unit
  sinkOpportunities : Except String Nat
  sinkTrends : Except String Nat
  sinkTools : Except String Nat
  sinkTutorials : Except String Nat
  updateCompleted : Except String Unit

def mStage {α : Type} (tag : MStage) (r : Except String α) (st : MarketingState) :
    Except (MarketingState × String) (MarketingState × α) :=
  let st2 : MarketingState := { st with trace := st.trace ++ [tag] }
  match r with
  | .ok a => .ok (st2, a)
  | .error e => .error (st2, e)

def setSessionState (st : MarketingState) (j : Json) : MarketingState :=
  { st with session := st.session.map (fun s => { s with state := some j }) }

def completeSessionWith (st : MarketingState) (j : Json) : MarketingState :=
  let upd := fun sess => { sess with status := SessionStatus.COMPLETED, state := some j }
  { st with session := st.session.map upd }

def scrapingStateJson (keywords : List String) (maxItems : Nat) : Json :=
  Json.obj [("phase", Json.str "scraping"),
            ("keywords", Json.arr (keywords.map Json.str)),
            ("maxItems", Json.num (maxItems : Int))]

/-- The literal session state written when normalization leaves no tweet. -/
def noTweetsStateJson : Json :=
  Json.obj [("phase", Json.str "completed"), ("reason", Json.str "no_tweets_found")]

def analyzingStateJson (n : Nat) : Json :=
  Json.obj [("phase", Json.str "analyzing"), ("tweetsToAnalyze", Json.num (n : Int))]

def storingStateJson (tweets opps trends tools tutorials : Nat) : Json :=
  Json.obj [("phase", Json.str "storing_results"),
            ("tweetsAnalyzed", Json.num (tweets : Int)),
            ("commentOpportunities", Json.num (opps : Int)),
            ("trends", Json.num (trends : Int)),
            ("newTools", Json.num (tools : Int)),
            ("tutorialIdeas", Json.num (tutorials : Int))]

def completedStateJson (raw tweets opps trends tools tutorials : Nat) : Json :=
  Json.obj [("phase", Json.str "completed"),
            ("tweetsScraped", Json.num (raw : Int)),
            ("tweetsAnalyzed", Json.num (tweets : Int)),
            ("commentOpportunities", Json.num (opps : Int)),
            ("trends", Json.num (trends : Int)),
            ("newTools", Json.num (tools : Int)),
            ("tutorialIdeas", Json.num (tutorials : Int))]

/-- The try block of the marketing run (index.ts lines 776 to 1023). The
four analyses are joined by Promise.all with fail-fast semantics; they are
laid out here in program order, each guarded by the truthiness of its sink
id exactly as in analyzeTwitterData, and each sink write guarded by a
nonempty result and its sink id. -/
def marketingBody (env : MarketingEnv) (st0 : MarketingState) :
    Except (MarketingState × String) (MarketingState × RunResult) :=
  let cfg := env.config
  let s := sinksOrEmpty cfg.sinks
  let effMaxItems := if cfg.maxItems = 0 then 200 else cfg.maxItems
  match mStage MStage.updateScraping env.updateScraping st0 with
  | .error pe => .error pe
  | .ok (st1, _) =>
    let st1b := setSessionState st1 (scrapingStateJson cfg.keywords effMaxItems)
    match mStage MStage.scrape env.scrape st1b with
    | .error pe => .error pe
    | .ok (st2, rawTweets) =>
      let tweets := normalizeTweets cfg.minAuthorFollowers rawTweets
      if tweets.length = 0 then
        match mStage MStage.updateNoTweets env.updateNoTweets st2 with
        | .error pe => .error pe
        | .ok (st3, _) =>
          .ok (completeSessionWith st3 noTweetsStateJson,
               { success := true,
                 reason := some "No relevant tweets found for the given keywords." })
      else
        match mStage MStage.updateAnalyzing env.updateAnalyzing st2 with
        | .error pe => .error pe
        | .ok (st3, _) =>
          let st3b := setSessionState st3 (analyzingStateJson tweets.length)
          match (if sinkTruthy s.opportunities
                 then mStage MStage.llmOpportunities env.llmOpportunities st3b
                 else .ok (st3b, [])) with
          | .error pe => .error pe
          | .ok (st4, opps) =>
            match (if sinkTruthy s.trends
                   then mStage MStage.llmTrends env.llmTrends st4
                   else .ok (st4, [])) with
            | .error pe => .error pe
            | .ok (st5, trends) =>
              match (if sinkTruthy s.tools
                     then mStage MStage.llmTools env.llmTools st5
                     else .ok (st5, [])) with
              | .error pe => .error pe
              | .ok (st6, tools) =>
                match (if sinkTruthy s.tutorials
                       then mStage MStage.llmTutorials env.llmTutorials st6
                       else .ok (st6, [])) with
                | .error pe => .error pe
                | .ok (st7, tutorials) =>
                  match mStage MStage.updateStoring env.updateStoring st7 with
                  | .error pe => .error pe
                  | .ok (st8, _) =>
                    let st8b := setSessionState st8
                      (storingStateJson tweets.length opps.length trends.length
                        tools.length tutorials.length)
                    match (if 0 < opps.length ∧ sinkTruthy s.opportunities
                           then mStage MStage.sinkOpportunities env.sinkOpportunities st8b
                           else .ok (st8b, 0)) with
                    | .error pe => .error pe
                    | .ok (st9, _) =>
                      match (if 0 < trends.length ∧ sinkTruthy s.trends
                             then mStage MStage.sinkTrends env.sinkTrends st9
                             else .ok (st9, 0)) with
                      | .error pe => .error pe
                      | .ok (st10, _) =>
                        match (if 0 < tools.length ∧ sinkTruthy s.tools
                               then mStage MStage.sinkTools env.sinkTools st10
                               else .ok (st10, 0)) with
                        | .error pe => .error pe
                        | .ok (st11, _) =>
                          match (if 0 < tutorials.length ∧ sinkTruthy s.tutorials
                                 then mStage MStage.sinkTutorials env.sinkTutorials st11
                                 else .ok (st11, 0)) with
                          | .error pe => .error pe
                          | .ok (st12, _) =>
                            match mStage MStage.updateCompleted env.updateCompleted st12 with
                            | .error pe => .error pe
                            | .ok (st13, _) =>
                              .ok (completeSessionWith st13
                                    (completedStateJson rawTweets.length tweets.length
                                      opps.length trends.length tools.length tutorials.length),
                                   { success := true, reason := none })

def marketingInitialState : MarketingState := { session := none, trace := [] }

/-- POST /agent/run of the marketing agent: the four pre-session config
checks in order, then session creation, the try block, and the catch block
marking the session FAILED with the thrown message. -/
def marketingRun (env : MarketingEnv) : MarketingState × RunResult :=
  let cfg := env.config
  if cfg.enabled = false then
    (marketingInitialState, { success := false, reason := some "Agent is disabled" })
  else if cfg.keywords.length = 0 then
    (marketingInitialState,
     { success := false,
       reason := some "No keywords configured. Set keywords in the OpenSink agent configuration." })
  else if cfg.companyName = "" ∨ cfg.companyDescription = ""
      ∨ cfg.founderName = "" ∨ cfg.founderContext = "" then
    (marketingInitialState,
     { success := false,
       reason := some "Missing required config fields: companyName, companyDescription, founderName, founderContext" })
  else if sinksConfigured cfg.sinks = false then
    (marketingInitialState,
     { success := false,
       reason := some "No sink IDs configured. Set at least one sink ID in the OpenSink agent configuration." })
  else
    let st0 : MarketingState :=
      { session := some { status := SessionStatus.RUNNING, errorMessage := none, state := none },
        trace := [] }
    match marketingBody env st0 with
    | .ok r => r
    | .error (st, e) =>
      let markFailed := fun sess =>
        { sess with status := SessionStatus.FAILED, errorMessage := some e }
      ({ st with session := st.session.map markFailed },
       { success := false, reason := some e })

/-- Claim C3: for every fetched configuration with enabled false, the run
endpoint returns success false with reason "Agent is disabled" while the
run state still has no session and an empty trace: no session is created
and no other store write happens before returning. Proved for the
finance-news run and the marketing run; the trading-agent fresh run has
the identical check before its session creation. -/
theorem disabled_agent_skips (fenv : FinanceEnv) (menv : MarketingEnv)
    (hf : fenv.config.enabled = false) (hm : menv.config.enabled = false) :
    financeRun fenv
      = (financeInitialState, { success := false, reason := some "Agent is disabled" })
    ∧ marketingRun menv
      = (marketingInitialState, { success := false, reason := some "Agent is disabled" }) := by
  constructor
  · unfold financeRun
    rw [if_pos hf]
  · unfold marketingRun
    simp only [hm, if_pos]

def financeEnvDisabled : FinanceEnv :=
  { config := { enabled := false, newItemsCount := 5 }
    news := .ok []
    pickTop := .ok []
    updateArticlesState := .ok ()
    createMany := .ok 0
    updateCompleted := .ok () }

def marketingEnvC10 : MarketingEnv :=
  { config :=
      { enabled := true
        keywords := ["ai agents"]
        maxItems := 100
        companyName := "OpenSink"
        companyWebsite := "https://opensink.com"
        companyDescription := "Memory and control layer for AI agents."
        founderName := "Dan"
        founderContext := "Solo founder at early stage."
        sinks := some { opportunities := "sink-opp", trends := "sink-trend",
                        tools := "sink-tool", tutorials := "sink-tut" }
        minAuthorFollowers := none }
    updateScraping := .ok ()
    scrape := .ok []
    updateNoTweets := .ok ()
    updateAnalyzing := .ok ()
    llmOpportunities := .ok []
    llmTrends := .ok []
    llmTools := .ok []
    llmTutorials := .ok []
    updateStoring := .ok ()
    sinkOpportunities := .ok 0
    sinkTrends := .ok 0
    sinkTools := .ok 0
    sinkTutorials := .ok 0
    updateCompleted := .ok () }

def marketingEnvDisabled : MarketingEnv :=
  { marketingEnvC10 with
    config := { marketingEnvC10.config with enabled := false } }

theorem disabled_agent_skips_witness :
    financeEnvDisabled.config.enabled = false
    ∧ marketingEnvDisabled.config.enabled = false
    ∧ financeRun financeEnvDisabled
        = (financeInitialState, { success := false, reason := some "Agent is disabled" }) :=
  ⟨rfl, rfl, (disabled_agent_skips financeEnvDisabled marketingEnvDisabled rfl rfl).1⟩

/-- Claim C10: when the marketing run is past its config checks and
normalization leaves zero tweets, the session is finalized COMPLETED with
state phase completed and reason no_tweets_found, the run returns success
true with the no-relevant-tweets reason, and the trace shows no
language-model call and no sink-item write. -/
theorem marketingRun_no_tweets (env : MarketingEnv) (raw : List ApifyTweet)
    (h1 : env.config.enabled = true)
    (h2 : env.config.keywords.length ≠ 0)
    (h3 : ¬ (env.config.companyName = "" ∨ env.config.companyDescription = ""
        ∨ env.config.founderName = "" ∨ env.config.founderContext = ""))
    (h4 : sinksConfigured env.config.sinks = true)
    (h5 : env.updateScraping = .ok ())
    (h6 : env.scrape = .ok raw)
    (h7 : env.updateNoTweets = .ok ())
    (h8 : normalizeTweets env.config.minAuthorFollowers raw = []) :
    marketingRun env =
      ({ session := some { status := SessionStatus.COMPLETED, errorMessage := none,
                           state := some noTweetsStateJson },
         trace := [MStage.updateScraping, MStage.scrape, MStage.updateNoTweets] },
       { success := true,
         reason := some "No relevant tweets found for the given keywords." }) := by
  simp only [marketingRun]
  rw [if_neg (by simp [h1]), if_neg h2, if_neg h3, if_neg (by simp [h4])]
  simp only [marketingBody]
  rw [h5, h6, h7]
  simp [mStage, setSessionState, completeSessionWith, h8]

theorem marketingRun_no_tweets_witness :
    normalizeTweets marketingEnvC10.config.minAuthorFollowers [] = []
    ∧ marketingRun marketingEnvC10 =
        ({ session := some { status := SessionStatus.COMPLETED, errorMessage := none,
                             state := some noTweetsStateJson },
           trace := [MStage.updateScraping, MStage.scrape, MStage.updateNoTweets] },
         { success := true,
           reason := some "No relevant tweets found for the given keywords." }) :=
  ⟨rfl, marketingRun_no_tweets marketingEnvC10 [] rfl (by decide) (by decide) rfl rfl rfl rfl rfl⟩
